import Mathlib

/-
Verification of the coordinate and region-classification engine of varmap
(src/varmap/record.py). The Python code is shallowly embedded: classes
become structures, optional (hasattr-style) attributes become Option
fields, mutation becomes explicit state passing, and fallible code returns
Option or an explicit outcome type. Machine integers are not involved:
Python integers are unbounded, so Int/Nat model them exactly.
-/

/-- Embedding of the Pos class (record.py lines 37 to 89): a dual
coordinate with a base position and an offset (tpos) relative to the
nearest exon boundary. -/
structure Pos where
  pos : Int
  tpos : Int
deriving DecidableEq

/-- Value of an ASCII digit character. -/
def digitVal (c : Char) : Nat := c.toNat - 48

/-- Numeric value of a big-endian list of digit characters, as computed by
the Python int() conversion applied to an all-digit string. -/
def digitsVal (l : List Char) : Nat := l.foldl (fun a c => 10 * a + digitVal c) 0

/-- Character for a digit value below ten. -/
def digitChar (d : Nat) : Char := Char.ofNat (48 + d)

/-- Big-endian decimal digits of a natural number, fuel-based so that the
kernel can reduce it; returns the empty list on zero (see natChars). -/
def natDigitsAux : Nat → Nat → List Char
  | 0, _ => []
  | f+1, n => if n = 0 then [] else natDigitsAux f (n / 10) ++ [digitChar (n % 10)]

/-- Decimal digit characters of a natural number, as printed by Python str(). -/
def natChars (n : Nat) : List Char := if n = 0 then ['0'] else natDigitsAux n n

/-- Decimal characters of an integer, as printed by Python str() and the
percent-d format: a minus sign followed by the digits when negative. -/
def intChars (i : Int) : List Char :=
  if i < 0 then '-' :: natChars i.natAbs else natChars i.natAbs

/-- String form of an integer, as printed by Python str(). -/
def intStr (i : Int) : String := String.mk (intChars i)

/-- Embedding of Python str.isdigit restricted to the ASCII fragment used
by the position grammar: true iff the string is nonempty and every
character is an ASCII digit. (Unicode digit categories, which Python would
also accept but whose int() conversion then fails, are not modelled.) -/
def pyIsdigit (l : List Char) : Bool := !l.isEmpty && l.all Char.isDigit

/-- Characters matched by the second regex character class of parse_pos,
namely plus, minus and the digits. -/
def isClass2 (c : Char) : Bool := c = '+' || c = '-' || c.isDigit

/-- Characters matched by the third regex character class of parse_pos,
namely star, plus, minus and the digits. -/
def isClass3 (c : Char) : Bool := c = '*' || isClass2 c

/-- Embedding of re.match applied to the pattern of one digit group
followed by one group over the class of plus, minus and digits
(record.py line 401). re.match anchors at the start only. The digit group
is greedy; when the character after the maximal digit run is not in the
second class, the regex engine backtracks one digit so that the second
group can match that digit (this needs at least two leading digits). -/
def regex2 (l : List Char) : Option (List Char × List Char) :=
  let k := (l.takeWhile Char.isDigit).length
  if k = 0 then none
  else if isClass2 ((l.drop k).headD ' ') then
    some (l.take k, (l.drop k).takeWhile isClass2)
  else if 2 ≤ k then
    some (l.take (k-1), (l.drop (k-1)).takeWhile isClass2)
  else none

/-- Embedding of re.match applied to one group over the class of star,
plus, minus and digits (record.py line 408): the maximal such prefix, or
no match when the first character is outside the class. -/
def regex3 (l : List Char) : Option (List Char) :=
  let g := l.takeWhile isClass3
  if g = [] then none else some g

/-- Embedding of a Python 3 decimal integer literal: a nonempty digit run;
a leading zero is only allowed when every digit is zero. Returns the value
and the remaining characters. -/
def parseDecInt (l : List Char) : Option (Nat × List Char) :=
  let ds := l.takeWhile Char.isDigit
  if ds = [] then none
  else if ds.headD ' ' = '0' && ds.any (fun c => !(c = '0')) then none
  else some (digitsVal ds, l.dropWhile Char.isDigit)

/-- Embedding of the two tightest-binding layers of a Python arithmetic
expression over the characters reachable from parse_pos (digits, plus,
minus, star): mode true parses a unary expression (a chain of unary plus
and minus signs applied to a power), mode false parses a power (a literal,
optionally raised with a double star to a unary expression, right
associative). A power with a negative exponent evaluates to a float in
Python; that case is mapped to failure (see pyEvalInt). Fuel-based
structural recursion so the kernel can reduce it. -/
def parsePW : Nat → Bool → List Char → Option (Int × List Char)
  | 0, _, _ => none
  | f+1, true, l =>
    match l with
    | c :: l2 =>
      if c = '+' then parsePW f true l2
      else if c = '-' then (parsePW f true l2).map (fun vr => (-vr.1, vr.2))
      else parsePW f false (c :: l2)
    | [] => parsePW f false []
  | f+1, false, l =>
    (parseDecInt l).bind fun nr =>
      match nr.2 with
      | '*' :: '*' :: r2 =>
        (parsePW f true r2).bind fun er =>
          if er.1 < 0 then none else some ((nr.1 : Int) ^ er.1.toNat, er.2)
      | _ => some ((nr.1 : Int), nr.2)

/-- Left-associative chain of multiplications (single star) over unary
expressions. -/
def parseMExprAux : Nat → Int → List Char → Option (Int × List Char)
  | 0, _, _ => none
  | f+1, acc, '*' :: l2 =>
    (parsePW f true l2).bind fun vr => parseMExprAux f (acc * vr.1) vr.2
  | _+1, acc, l => some (acc, l)

/-- A multiplicative expression: a unary expression followed by a chain of
multiplications. -/
def parseMExpr (f : Nat) (l : List Char) : Option (Int × List Char) :=
  (parsePW f true l).bind fun vr => parseMExprAux f vr.1 vr.2

/-- Left-associative chain of binary plus and minus over multiplicative
expressions. -/
def parseAExprAux : Nat → Int → List Char → Option (Int × List Char)
  | 0, _, _ => none
  | f+1, acc, '+' :: l2 =>
    (parseMExpr f l2).bind fun vr => parseAExprAux f (acc + vr.1) vr.2
  | f+1, acc, '-' :: l2 =>
    (parseMExpr f l2).bind fun vr => parseAExprAux f (acc - vr.1) vr.2
  | _+1, acc, l => some (acc, l)

/-- Embedding of the Python eval() calls of parse_pos (record.py lines 405
and 418). The argument is always a string over digits, plus, minus and
star, so the reachable grammar is integer arithmetic over unary sign,
binary plus and minus, multiplication and power. Returns none when Python
would raise a SyntaxError, and also when the value would be a float (a
power with negative exponent); no claim depends on the float case. -/
def pyEvalInt (l : List Char) : Option Int :=
  let f := 2 * l.length + 8
  (parseMExpr f l).bind fun vr =>
    (parseAExprAux f vr.1 vr.2).bind fun vr2 =>
      if vr2.2 = [] then some vr2.1 else none

/-- Outcome of parse_pos: a position, the InvalidInputError of record.py
line 421 carrying its message, or an error propagated out of eval()
(SyntaxError, or a float result that no later code expects). -/
inductive PyOutcome where
  | ok (p : Pos)
  | invalidInput (msg : String)
  | pyError
deriving DecidableEq

/-- Embedding of parse_pos (record.py lines 393 to 421) on a character
list: an all-digit token is a plain base; a token matching digits followed
by a signed tail sets base and evaluated offset; a token over the class of
star, plus, minus and digits sets base one when it starts with minus and
base minus one otherwise (a leading star is stripped before eval);
anything else raises InvalidInputError with the offending token. -/
def parse_posL (l : List Char) : PyOutcome :=
  if pyIsdigit l then PyOutcome.ok ⟨(digitsVal l : Int), 0⟩
  else match regex2 l with
  | some g =>
    match pyEvalInt g.2 with
    | some v => PyOutcome.ok ⟨(digitsVal g.1 : Int), v⟩
    | none => PyOutcome.pyError
  | none =>
    match regex3 l with
    | some g =>
      let b : Int := if g.headD ' ' = '-' then 1 else -1
      let tp := if g.headD ' ' = '*' then g.drop 1 else g
      match pyEvalInt tp with
      | some v => PyOutcome.ok ⟨b, v⟩
      | none => PyOutcome.pyError
    | none => PyOutcome.invalidInput (("invalid_position_string_") ++ String.mk l)

/-- Embedding of parse_pos on a string. -/
def parse_pos (s : String) : PyOutcome := parse_posL s.data

/-- Embedding of the textual rendering of a position
(record.py lines 45 to 54, the repr method), on a character list. -/
def Pos.reprL (p : Pos) : List Char :=
  if p.tpos < 0 then intChars p.pos ++ intChars p.tpos
  else if 0 < p.tpos then
    if p.pos < 0 then '*' :: natChars p.tpos.natAbs
    else intChars p.pos ++ '+' :: natChars p.tpos.natAbs
  else intChars p.pos

/-- Embedding of the textual rendering of a position as a string. -/
def Pos.repr (p : Pos) : String := String.mk p.reprL

/-- Embedding of Pos.add (record.py lines 63 to 69): no bounds check, the
offset absorbs the increment when nonzero, otherwise the base does. -/
def Pos.add (p : Pos) (inc : Int) : Pos :=
  if p.tpos = 0 then { p with pos := p.pos + inc } else { p with tpos := p.tpos + inc }

/-- Embedding of Pos.subtract (record.py lines 71 to 77). -/
def Pos.subtract (p : Pos) (inc : Int) : Pos :=
  if p.tpos = 0 then { p with pos := p.pos - inc } else { p with tpos := p.tpos - inc }

/-- Embedding of append_inf (record.py lines 99 to 103): join two
annotation fragments with a semicolon, dropping an empty left part. -/
def append_inf (f a : String) : String := if f = "" then a else f ++ ";" ++ a

/-- Truthiness of an optional Python string: None and the empty string are
falsy. -/
def pyTruthyStr : Option String → Bool
  | none => false
  | some s => !(s = "")

/-- Rendering of an optional Python string through a percent-s format:
str(None) is the literal text None. -/
def pyStrOpt : Option String → String
  | none => "None"
  | some s => s

/-- Embedding of the Transcript collaborator (external to record.py): only
the fields record.py reads are modelled. Python compares transcript
objects with double-equals; structural equality models that comparison. -/
structure Transcript where
  gene_name : String
  chrm : String
  strand : Char
  cds_beg : Int
  cds_end : Int
  gene_dbxref : String
  aliases : List String
  source : String
deriving DecidableEq

/-- Embedding of format_group (record.py lines 178 to 179):
locale.format with grouping set to False, which is the plain percent-d
rendering of the integer whatever the locale. -/
def format_group (d : Int) : String := intStr d

/-- Embedding of RegIntergenicAnno (record.py lines 181 to 223). The two
distance fields are initialized to None in the source and are always
populated by the external model before rendering; they are modelled as
integers. Strand fields stay optional (None means the flank strand is
unknown). -/
structure RegIntergenicAnno where
  e5_name : Option String
  e5_dist : Int
  e5_strand : Option Char
  e3_name : Option String
  e3_dist : Int
  e3_strand : Option Char
deriving DecidableEq

/-- Embedding of RegIntergenicAnno.e5_stream (record.py lines 195 to 201):
None when the five-prime flank strand is unknown, downstream when it is
plus, upstream otherwise. -/
def RegIntergenicAnno.e5_stream (r : RegIntergenicAnno) : Option String :=
  match r.e5_strand with
  | none => none
  | some c => if c = '+' then some ("downstream") else some ("upstream")

/-- Embedding of RegIntergenicAnno.e3_stream (record.py lines 203 to 209):
None when the three-prime flank strand is unknown, downstream when it is
minus, upstream otherwise. -/
def RegIntergenicAnno.e3_stream (r : RegIntergenicAnno) : Option String :=
  match r.e3_strand with
  | none => none
  | some c => if c = '-' then some ("downstream") else some ("upstream")

/-- Text rendered for the five-prime flank inside format0 (record.py
lines 215 to 216): the formatted distance alone when the strand is
unknown, otherwise the distance followed by the directional suffix. -/
def RegIntergenicAnno.e5_text (r : RegIntergenicAnno) : String :=
  match r.e5_strand with
  | none => format_group r.e5_dist ++ "_bp"
  | some _ => format_group r.e5_dist ++ "_bp_" ++ (r.e5_stream.getD "")

/-- Text rendered for the three-prime flank inside format0 (record.py
lines 218 to 219). -/
def RegIntergenicAnno.e3_text (r : RegIntergenicAnno) : String :=
  match r.e3_strand with
  | none => format_group r.e3_dist ++ "_bp"
  | some _ => format_group r.e3_dist ++ "_bp_" ++ (r.e3_stream.getD "")

/-- Embedding of RegIntergenicAnno.format0 (record.py lines 211 to 219). -/
def RegIntergenicAnno.format0 (r : RegIntergenicAnno) : String :=
  ("intergenic_between_") ++ pyStrOpt r.e5_name ++ "(" ++ r.e5_text ++ ")_and_"
    ++ pyStrOpt r.e3_name ++ "(" ++ r.e3_text ++ ")"

/-- Embedding of RegIntergenicAnno.format (record.py lines 221 to 223). -/
def RegIntergenicAnno.format (r : RegIntergenicAnno) : String :=
  ("inside_[") ++ r.format0 ++ "]"

/-- Embedding of SpliceSite (record.py lines 376 to 391). -/
structure SpliceSite where
  chrm : String
  pos : Int
  exonno : Int
  stype : String
  nextto : Bool
deriving DecidableEq

/-- Embedding of SpliceSite.format (record.py lines 386 to 391). -/
def SpliceSite.format (s : SpliceSite) : String :=
  (if s.nextto then ("NextTo") else ("")) ++ "Splice" ++ s.stype ++ "OfExon"
    ++ intStr s.exonno ++ "_At_" ++ s.chrm ++ ":" ++ intStr s.pos

/-- Embedding of RegAnno (record.py lines 105 to 176), the single-site
classification. Attributes that the source attaches dynamically
(intergenic, t, splice, tss, tes) become Option fields; the exon and
intron indices are initialized to None in the source but only read when
the corresponding flag is set, and are modelled as integers. -/
structure RegAnno where
  exonic : Bool
  exon : Int
  cds : Bool
  UTR : Option String
  intronic : Bool
  intron_exon1 : Int
  intron_exon2 : Int
  cds_beg : Option Int
  cds_end : Option Int
  intergenic : Option RegIntergenicAnno
  t : Option Transcript
  splice : Option SpliceSite
  tss : Option Int
  tes : Option Int
deriving DecidableEq

/-- Embedding of RegAnno.genic (record.py lines 128 to 133). -/
def RegAnno.genic (r : RegAnno) : Bool := r.intergenic.isNone

/-- Embedding of RegAnno.entirely_in_cds (record.py lines 135 to 137). -/
def RegAnno.entirely_in_cds (r : RegAnno) : Bool := r.cds

/-- Embedding of RegAnno.csqn (record.py lines 139 to 148): Intronic, then
a UTR side, then Intergenic, then Unclassified. -/
def RegAnno.csqn (r : RegAnno) : String :=
  if r.intronic then ("Intronic")
  else if pyTruthyStr r.UTR then (r.UTR.getD "") ++ "-UTR"
  else if r.intergenic.isSome then ("Intergenic")
  else ("Unclassified")

/-- Embedding of RegAnno.format0 (record.py lines 150 to 173) without the
with_name flag: the flag defaults to False and is set only by
RegSpanAnno.format, which is not modelled (no claim depends on it). -/
def RegAnno.format0 (r : RegAnno) : String :=
  match r.intergenic with
  | some ig => ig.format0
  | none =>
    let f := ""
    let f := match r.UTR with
      | some u => if u = "" then f else append_inf f (u ++ "-UTR")
      | none => f
    if r.intronic then
      append_inf f (("intron_between_exon_") ++ intStr r.intron_exon1
        ++ "_and_" ++ intStr r.intron_exon2)
    else if r.exonic then
      if r.cds then append_inf f (("cds_in_exon_") ++ intStr r.exon)
      else append_inf f (("noncoding_exon_") ++ intStr r.exon)
    else f

/-- Embedding of RegAnno.format (record.py lines 175 to 176). -/
def RegAnno.format (r : RegAnno) : String := ("inside_[") ++ r.format0 ++ "]"

/-- Embedding of same_region (record.py lines 225 to 228): the formatted
descriptions agree, and the condition that r1 lacks a transcript, or r2
lacks one, or the two transcripts are equal. -/
def same_region (r1 r2 : RegAnno) : Bool :=
  (r1.format = r2.format)
    && (r1.t.isNone || r2.t.isNone || (r1.t = r2.t))

/-- One entry of the splice_donors or splice_acceptors list attached to a
span by the external model: exon index, chromosome, genomic position. -/
structure SpliceEvt where
  exind : Int
  chrm : String
  spos : Int
deriving DecidableEq

/-- The intergenic object attached to a RegSpanAnno by the external model;
RegSpanAnno.csqn reads only its spanning list (record.py line 314). -/
structure IntergenicSpan where
  spanning : List String
deriving DecidableEq

/-- Embedding of RegSpanAnno (record.py lines 266 to 345). Dynamically
attached attributes become Option fields; cross_start and cross_end are
only ever tested for truthiness and are modelled as booleans (false covers
both the absent attribute and a falsy value); spanning holds gene names. -/
structure RegSpanAnno where
  b1 : RegAnno
  b2 : RegAnno
  spanning : List String
  intergenic : Option IntergenicSpan
  splice_donors : Option (List SpliceEvt)
  splice_acceptors : Option (List SpliceEvt)
  splice_both : Option (List Int)
  cross_start : Bool
  cross_end : Bool
  t : Option Transcript
deriving DecidableEq

/-- Embedding of RegSpanAnno.in_UTR (record.py lines 282 to 284): both
boundary UTR fields truthy and equal. -/
def RegSpanAnno.in_UTR (s : RegSpanAnno) : Bool :=
  pyTruthyStr s.b1.UTR && pyTruthyStr s.b2.UTR && (s.b1.UTR = s.b2.UTR)

/-- Embedding of RegSpanAnno.in_exon (record.py lines 286 to 289). -/
def RegSpanAnno.in_exon (s : RegSpanAnno) : Bool :=
  s.b1.exonic && s.b2.exonic && (s.b1.exon = s.b2.exon)

/-- Embedding of RegSpanAnno.entirely_in_cds (record.py lines 291 to 294). -/
def RegSpanAnno.entirely_in_cds (s : RegSpanAnno) : Bool :=
  s.b1.cds && s.b2.cds && (s.b1.exon = s.b2.exon)

/-- Embedding of RegSpanAnno.in_intron (record.py lines 296 to 301). -/
def RegSpanAnno.in_intron (s : RegSpanAnno) : Bool :=
  s.b1.intronic && s.b2.intronic && (s.b1.intron_exon1 = s.b2.intron_exon1)
    && (s.b1.intron_exon2 = s.b2.intron_exon2)

/-- Embedding of RegSpanAnno.csqn (record.py lines 309 to 324): an
attached intergenic object with an empty spanning list, then a nonempty
splice donor list, then a nonempty splice acceptor list, then intronic,
then a UTR side, then Unclassified. -/
def RegSpanAnno.csqn (s : RegSpanAnno) : String :=
  if (match s.intergenic with | some ig => ig.spanning.isEmpty | none => false) then ("Intergenic")
  else if (match s.splice_donors with | some ds => !ds.isEmpty | none => false) then ("SpliceDonor")
  else if (match s.splice_acceptors with | some ac => !ac.isEmpty | none => false) then ("SpliceAcceptor")
  else if s.in_intron then ("Intronic")
  else if s.in_UTR then (s.b1.UTR.getD "") ++ "-UTR"
  else ("Unclassified")

/-- The region slot of a Record: the dot placeholder, a single-site
annotation, or a span annotation (the codon-level RegCDSAnno variant is
not touched by any claim and is not modelled). -/
inductive Reg where
  | dot
  | single (a : RegAnno)
  | span (s : RegSpanAnno)
deriving DecidableEq

/-- Embedding of Record (record.py lines 561 to 572): the fields the
claims touch. Coordinate fields (tnuc, gnuc, taa, vcf) feed only the
rendering template and are not modelled. -/
structure Record where
  tname : String
  chrm : String
  gene : String
  strand : String
  reg : Reg
  info : String
  is_var : Bool
  csqn : List String
deriving DecidableEq

/-- Embedding of Record.prepend_info (record.py lines 588 to 592). -/
def Record.prepend_info (r : Record) (app : String) : Record :=
  if r.info ≠ "" && r.info ≠ "." then { r with info := app ++ ";" ++ r.info }
  else { r with info := app }

/-- Embedding of Record.append_info (record.py lines 594 to 598). -/
def Record.append_info (r : Record) (app : String) : Record :=
  if r.info ≠ "" && r.info ≠ "." then { r with info := r.info ++ ";" ++ app }
  else { r with info := app }

/-- Embedding of Record.set_splice (record.py lines 615 to 690), with
mutation turned into state passing: returns the updated record and the
boolean the method returns, or none where the Python would raise an
AttributeError (reading reg.t or a field of a string-valued reg). -/
def Record.set_splice (r0 : Record) (action0 : String) (csqnAction : String) :
    Option (Record × Bool) :=
  let action := if action0 = "" then "" else "_" ++ action0
  match r0.reg with
  | Reg.span sp =>
    let st1 : Record × Bool :=
      match sp.splice_donors with
      | none => (r0, false)
      | some ds =>
        let r1 := if ds.isEmpty then r0
          else { r0 with csqn := r0.csqn ++ [("SpliceDonor") ++ csqnAction] }
        let r2 := ds.foldl (fun r d => r.append_info (("C2=donor_splice_site_on_exon_")
          ++ intStr d.exind ++ "_at_" ++ d.chrm ++ ":" ++ intStr d.spos ++ action)) r1
        (r2, !ds.isEmpty)
    let st2 : Record × Bool :=
      match sp.splice_acceptors with
      | none => st1
      | some ac =>
        let r1 := if ac.isEmpty then st1.1
          else { st1.1 with csqn := st1.1.csqn ++ [("SpliceAcceptor") ++ csqnAction] }
        let r2 := ac.foldl (fun r d => r.append_info (("C2=acceptor_splice_site_on_exon_")
          ++ intStr d.exind ++ "_at_" ++ d.chrm ++ ":" ++ intStr d.spos ++ action)) r1
        (r2, st1.2 || !ac.isEmpty)
    let st3 : Record × Bool :=
      match sp.splice_both with
      | none => st2
      | some bs =>
        if bs.isEmpty then st2
        else (st2.1.append_info (("whole_exon_[")
          ++ String.intercalate "," (bs.map intStr) ++ "]" ++ action), true)
    let st4 : Option (Record × Bool) :=
      if sp.cross_start then
        match sp.t with
        | none => none
        | some tr =>
          if tr.strand = '+' then
            some (({ st3.1 with csqn := st3.1.csqn ++ [("CdsStart") ++ csqnAction] }).append_info
              (("cds_start_at_") ++ tr.chrm ++ ":" ++ intStr tr.cds_beg ++ action), true)
          else
            some (({ st3.1 with csqn := st3.1.csqn ++ [("CdsStop") ++ csqnAction] }).append_info
              (("cds_stop_at_") ++ tr.chrm ++ ":" ++ intStr tr.cds_beg ++ action), true)
      else some st3
    st4.bind fun st =>
      if sp.cross_end then
        match sp.t with
        | none => none
        | some tr =>
          if tr.strand = '+' then
            some (({ st.1 with csqn := st.1.csqn ++ [("CdsStop") ++ csqnAction] }).append_info
              (("cds_end_at_") ++ tr.chrm ++ ":" ++ intStr tr.cds_end ++ action), true)
          else
            some (({ st.1 with csqn := st.1.csqn ++ [("CdsStart") ++ csqnAction] }).append_info
              (("cds_start_at_") ++ tr.chrm ++ ":" ++ intStr tr.cds_end ++ action), true)
      else some st
  | Reg.single ra =>
    let st1 : Record × Bool :=
      match ra.splice with
      | none => (r0, false)
      | some ss =>
        let hit := !ss.nextto && decide (csqnAction ≠ "Synonymous")
        let r1 := if hit then { r0 with csqn := r0.csqn ++ [("Splice") ++ ss.stype ++ csqnAction] }
          else r0
        (r1.append_info (("C2=") ++ ss.format), hit)
    let st2 : Option (Record × Bool) :=
      match ra.cds_beg with
      | none => some st1
      | some cb =>
        match ra.t with
        | none => none
        | some tr =>
          some (({ st1.1 with csqn := st1.1.csqn ++ [("CdsStart") ++ csqnAction] }).append_info
            (("C2=cds_start_at_") ++ tr.chrm ++ ":" ++ intStr cb),
            st1.2 || decide (csqnAction ≠ "Synonymous"))
    st2.bind fun stA =>
      let st3 : Option (Record × Bool) :=
        match ra.cds_end with
        | none => some stA
        | some ce =>
          match ra.t with
          | none => none
          | some tr =>
            some (({ stA.1 with csqn := stA.1.csqn ++ [("CdsStop") ++ csqnAction] }).append_info
              (("C2=cds_end_at_") ++ tr.chrm ++ ":" ++ intStr ce),
              stA.2 || decide (csqnAction ≠ "Synonymous"))
      st3.bind fun stB =>
        let st4 : Option (Record × Bool) :=
          match ra.tss with
          | none => some stB
          | some ts =>
            match ra.t with
            | none => none
            | some tr =>
              some (stB.1.append_info (("transcription_start_at_") ++ tr.chrm ++ ":" ++ intStr ts),
                stB.2 || decide (csqnAction ≠ "Synonymous"))
        st4.bind fun stC =>
          match ra.tes with
          | none => some stC
          | some te =>
            match ra.t with
            | none => none
            | some tr =>
              some (stC.1.append_info (("transcription_end_at_") ++ tr.chrm ++ ":" ++ intStr te),
                stC.2 || decide (csqnAction ≠ "Synonymous"))
  | Reg.dot => none

/-- Embedding of the consequence-finalization block at the start of
Record.formats (record.py lines 735 to 743): for a variant record, a
CSQN token is prepended to info according to the number of distinct
accumulated consequence tags; the list with duplicates is joined for the
Multi case. The rest of formats only renders the template and is not
modelled. -/
def Record.finalizeCsqn (r : Record) : Record :=
  if r.is_var then
    if r.csqn.length = 0 then r.prepend_info ("CSQN=Unclassified")
    else if r.csqn.dedup.length = 1 then r.prepend_info (("CSQN=") ++ r.csqn.headD "")
    else r.prepend_info (("CSQN=Multi:") ++ String.intercalate "," r.csqn)
  else r

/-- Embedding of normalize_reg (record.py lines 532 to 549): the begin and
end of a region query are compared against the reference length supplied
by the external reflen collaborator, in source order (upper clamp first,
then the negative clamp), counting one emitted warning per clamp. Returns
the clamped begin, the clamped end and the number of warnings. -/
def normalize_reg (beg en reflen : Int) : Int × Int × Nat :=
  let w1 : Nat := if beg > reflen then 1 else 0
  let beg1 : Int := if beg > reflen then reflen else beg
  let w2 : Nat := if en > reflen then w1 + 1 else w1
  let en1 : Int := if en > reflen then reflen else en
  let w3 : Nat := if beg1 < 0 then w2 + 1 else w2
  let beg2 : Int := if beg1 < 0 then 0 else beg1
  let w4 : Nat := if en1 < 0 then w3 + 1 else w3
  let en2 : Int := if en1 < 0 then 0 else en1
  (beg2, en2, w4)

/-- Modelled from the spec: the clamp order the specification states,
negative endpoints clamped to zero before the upper clamp is checked.
Used to compare against the source order of normalize_reg. -/
def normalize_reg_specOrder (beg en reflen : Int) : Int × Int × Nat :=
  let w1 : Nat := if beg < 0 then 1 else 0
  let beg1 : Int := if beg < 0 then 0 else beg
  let w2 : Nat := if en < 0 then w1 + 1 else w1
  let en1 : Int := if en < 0 then 0 else en
  let w3 : Nat := if beg1 > reflen then w2 + 1 else w2
  let beg2 : Int := if beg1 > reflen then reflen else beg1
  let w4 : Nat := if en1 > reflen then w3 + 1 else w3
  let en2 : Int := if en1 > reflen then reflen else en1
  (beg2, en2, w4)

/-- A concrete transcript used by witnesses and counterexamples. -/
def trEx : Transcript := ⟨"G1", "chr1", '+', 100, 200, "", [], ""⟩

/-- A single-site annotation with every flag clear and every attachment
absent, as RegAnno.init leaves it; its formatted description is the empty
inside brackets. -/
def raPlain : RegAnno :=
  ⟨false, 0, false, none, false, 0, 0, none, none, none, none, none, none, none⟩

/-- The annotation raPlain with a transcript reference attached. -/
def raWithT : RegAnno := { raPlain with t := some trEx }


/-! Helper lemmas about deduplication, shared by the consequence
finalization proof. -/

theorem dedup_of_all_eq {l : List String} {a : String} (h0 : l ≠ [])
    (h : ∀ x ∈ l, x = a) : l.dedup = [a] := by
  induction l with
  | nil => exact absurd rfl h0
  | cons x xs ih =>
    have hx : x = a := h x (by simp)
    cases xs with
    | nil =>
      subst hx
      rw [List.dedup_cons_of_not_mem (by simp), List.dedup_nil]
    | cons y ys =>
      have hy : y = a := h y (by simp)
      have hmem : x ∈ y :: ys := by simp [hx, hy]
      rw [List.dedup_cons_of_mem hmem]
      exact ih (by simp) (fun z hz => h z (by simp [hz]))

theorem dedup_length_ne_one {l : List String} {x y : String} (hx : x ∈ l)
    (hy : y ∈ l) (hxy : x ≠ y) : l.dedup.length ≠ 1 := by
  intro h1
  obtain ⟨a, ha⟩ := List.length_eq_one.mp h1
  have hxa : x = a := by
    have := List.mem_dedup.mpr hx
    rw [ha] at this
    simpa using this
  have hya : y = a := by
    have := List.mem_dedup.mpr hy
    rw [ha] at this
    simpa using this
  exact hxy (hxa.trans hya.symm)

/-- C10: Pos.add then Pos.subtract restores the position when the starting
offset is zero, or when it is nonzero and stays nonzero after the add; but
when the nonzero starting offset equals the negated increment, the add
zeroes the offset and the subtract then mutates the base, giving base
minus increment with offset zero, a different position, so add and
subtract are not mutual inverses in general. -/
theorem pos_add_subtract (p : Pos) (n : Int) :
    (p.tpos = 0 → (p.add n).subtract n = p) ∧
    (p.tpos ≠ 0 → p.tpos + n ≠ 0 → (p.add n).subtract n = p) ∧
    (p.tpos ≠ 0 → p.tpos = -n → (p.add n).subtract n = ⟨p.pos - n, 0⟩) ∧
    (p.tpos ≠ 0 → p.tpos = -n → (p.add n).subtract n ≠ p) := by
  obtain ⟨pp, pt⟩ := p
  refine ⟨fun h1 => ?_, fun h1 h2 => ?_, fun h1 h2 => ?_, fun h1 h2 => ?_⟩ <;>
    simp only [Pos.add, Pos.subtract] at *
  · simp [h1]
  · simp only [if_neg h1]
    simp only [if_neg h2]
    simp
  · simp only [if_neg h1]
    have hz : pt + n = 0 := by omega
    simp [hz]
  · simp only [if_neg h1]
    have hz : pt + n = 0 := by omega
    simp [hz]
    omega

/-- Witness for pos_add_subtract at concrete positions. -/
theorem pos_add_subtract_witness :
    ((Pos.mk 5 (-3)).add 3).subtract 3 = ⟨2, 0⟩ ∧
    ((Pos.mk 2 7).add 3).subtract 3 = ⟨2, 7⟩ ∧
    ((Pos.mk 9 0).add 4).subtract 4 = ⟨9, 0⟩ := by
  refine ⟨(pos_add_subtract ⟨5, -3⟩ 3).2.2.1 (by decide) (by decide),
    (pos_add_subtract ⟨2, 7⟩ 3).2.1 (by decide) (by decide),
    (pos_add_subtract ⟨9, 0⟩ 4).1 (by decide)⟩

/-- C7: normalize_reg clamps both endpoints into the closed interval from
zero to the reference length, leaves in-range endpoints unchanged, and
counts exactly one warning per clamped endpoint; the source order of the
checks (upper clamp first, then the negative clamp) is observationally the
same as the order the specification states, as witnessed by equality with
normalize_reg_specOrder; the concrete region from minus ten to reference
length plus fifty against reference length one thousand becomes zero to
one thousand with exactly two warnings. -/
theorem normalize_reg_clamps :
    (∀ beg en reflen : Int, 0 ≤ reflen →
      (normalize_reg beg en reflen).1 = max 0 (min beg reflen) ∧
      (normalize_reg beg en reflen).2.1 = max 0 (min en reflen) ∧
      (normalize_reg beg en reflen).2.2 =
        ((if beg < 0 ∨ reflen < beg then 1 else 0) +
          (if en < 0 ∨ reflen < en then 1 else 0) : Nat) ∧
      (0 ≤ beg → beg ≤ reflen → (normalize_reg beg en reflen).1 = beg) ∧
      (0 ≤ en → en ≤ reflen → (normalize_reg beg en reflen).2.1 = en) ∧
      normalize_reg beg en reflen = normalize_reg_specOrder beg en reflen) ∧
    normalize_reg (-10) 1050 1000 = (0, 1000, 2) := by
  constructor
  · intro beg en reflen h
    simp only [normalize_reg, normalize_reg_specOrder, Prod.mk.injEq]
    refine ⟨?_, ?_, ?_, ?_, ?_, ?_, ?_, ?_⟩ <;> split_ifs <;> omega
  · decide

/-- Witness for normalize_reg_clamps at concrete in-range and clamped
endpoints. -/
theorem normalize_reg_clamps_witness :
    (normalize_reg 5 2000 1000).1 = max 0 (min 5 1000) ∧
    (normalize_reg 5 2000 1000).2.2 = 1 := by
  have h := normalize_reg_clamps.1 5 2000 1000 (by decide)
  refine ⟨h.1, ?_⟩
  rw [h.2.2.1]
  decide

/-- C3: on rendering a variant record, the consequence finalization
prepends CSQN equal to Unclassified when no tags were accumulated, CSQN
equal to the single tag when all accumulated tags are one distinct tag
(duplicates collapse), and CSQN equal to Multi with the comma-joined tag
list in original order when at least two distinct tags occur; a non-variant
record is left unchanged whatever its tag list. -/
theorem record_csqn_finalization (r : Record) :
    (r.is_var = true → r.csqn = [] →
      r.finalizeCsqn.info = (r.prepend_info ("CSQN=Unclassified")).info) ∧
    (∀ tag, r.is_var = true → r.csqn ≠ [] → (∀ x ∈ r.csqn, x = tag) →
      r.finalizeCsqn.info = (r.prepend_info (("CSQN=") ++ tag)).info) ∧
    (∀ x y, r.is_var = true → x ∈ r.csqn → y ∈ r.csqn → x ≠ y →
      r.finalizeCsqn.info =
        (r.prepend_info (("CSQN=Multi:") ++ String.intercalate "," r.csqn)).info) ∧
    (r.is_var = false → r.finalizeCsqn = r) := by
  refine ⟨fun hv h0 => ?_, fun tag hv h0 hall => ?_, fun x y hv hx hy hxy => ?_,
    fun hv => ?_⟩
  · simp [Record.finalizeCsqn, hv, h0]
  · have hded : r.csqn.dedup = [tag] := dedup_of_all_eq h0 hall
    have hlen : r.csqn.length ≠ 0 := fun hc => h0 (List.length_eq_zero.mp hc)
    have hhead : r.csqn.head?.getD "" = tag := by
      cases hc : r.csqn with
      | nil => exact absurd hc h0
      | cons c cs => simpa using hall c (by simp [hc])
    simp [Record.finalizeCsqn, hv, hlen, hded, hhead]
  · have hne : r.csqn ≠ [] := fun hc => by simp [hc] at hx
    have hlen : r.csqn.length ≠ 0 := fun hc => hne (List.length_eq_zero.mp hc)
    have hded : r.csqn.dedup.length ≠ 1 := dedup_length_ne_one hx hy hxy
    simp [Record.finalizeCsqn, hv, hlen, hded]
  · simp [Record.finalizeCsqn, hv]

/-- Witness for record_csqn_finalization covering the duplicate-collapse
case and the Multi case at concrete records. -/
theorem record_csqn_finalization_witness :
    (Record.mk "." "." "." "." Reg.dot "." true
      ["Missense", "Missense"]).finalizeCsqn.info = "CSQN=Missense" ∧
    (Record.mk "." "." "." "." Reg.dot "." true
      ["Missense", "SpliceDonor"]).finalizeCsqn.info = "CSQN=Multi:Missense,SpliceDonor" ∧
    (Record.mk "." "." "." "." Reg.dot "." true []).finalizeCsqn.info = "CSQN=Unclassified" ∧
    (Record.mk "." "." "." "." Reg.dot "abc" false ["Missense"]).finalizeCsqn = Record.mk "." "." "." "." Reg.dot "abc" false ["Missense"] := by
  refine ⟨?_, ?_, ?_, ?_⟩
  · rw [(record_csqn_finalization _).2.1 ("Missense") rfl (by decide) (by decide)]
    decide
  · rw [(record_csqn_finalization _).2.2.1 ("Missense") ("SpliceDonor") rfl (by decide)
      (by decide) (by decide)]
    decide
  · rw [(record_csqn_finalization _).1 rfl rfl]
    decide
  · exact (record_csqn_finalization _).2.2.2 rfl

/-- C4 counterexample: two single-site annotations with equal formatted
descriptions, of which exactly one carries a transcript reference, are
reported as the same region by the code, while the claim says that a pair
with exactly one transcript reference is never the same region. -/
theorem same_region_cex :
    same_region raWithT raPlain = true ∧ raWithT.t = some trEx ∧ raPlain.t = none := by
  decide

/-- C4 (amended): same_region holds iff the two formatted descriptions
are equal and, when both annotations carry a transcript reference, the two
references are equal; when at least one of the two lacks a transcript
reference, equality of the formatted descriptions alone decides it. -/
theorem same_region_transcripts (r1 r2 : RegAnno) :
    (r1.t = none ∨ r2.t = none →
      (same_region r1 r2 = true ↔ r1.format = r2.format)) ∧
    (∀ t1 t2, r1.t = some t1 → r2.t = some t2 →
      (same_region r1 r2 = true ↔ (r1.format = r2.format ∧ t1 = t2))) := by
  constructor
  · intro h
    rcases h with h | h <;> simp [same_region, h]
  · intro t1 t2 h1 h2
    simp [same_region, h1, h2]

/-- Witness for same_region_transcripts at a one-sided pair and at a
two-sided pair. -/
theorem same_region_transcripts_witness :
    (same_region raWithT raPlain = true ↔ raWithT.format = raPlain.format) ∧
    (same_region raWithT raWithT = true ↔
      (raWithT.format = raWithT.format ∧ trEx = trEx)) :=
  ⟨(same_region_transcripts raWithT raPlain).1 (Or.inr rfl),
   (same_region_transcripts raWithT raWithT).2 trEx trEx rfl rfl⟩

/-- C5: the consequence label precedence. For a span annotation: an
attached intergenic record with no spanning genes gives Intergenic, else a
nonempty splice donor list gives SpliceDonor, else a nonempty splice
acceptor list gives SpliceAcceptor, else intronic gives Intronic, else a
shared UTR side gives side-UTR, else Unclassified. For a single-site
annotation: intronic gives Intronic, else a set UTR side gives side-UTR,
else an attached intergenic record gives Intergenic, else Unclassified. -/
theorem csqn_precedence (sp : RegSpanAnno) (ra : RegAnno) :
    ((∃ ig, sp.intergenic = some ig ∧ ig.spanning = []) → sp.csqn = "Intergenic") ∧
    ((∀ ig, sp.intergenic = some ig → ig.spanning ≠ []) →
      (∃ ds, sp.splice_donors = some ds ∧ ds ≠ []) → sp.csqn = "SpliceDonor") ∧
    ((∀ ig, sp.intergenic = some ig → ig.spanning ≠ []) →
      (∀ ds, sp.splice_donors = some ds → ds = []) →
      (∃ ac, sp.splice_acceptors = some ac ∧ ac ≠ []) → sp.csqn = "SpliceAcceptor") ∧
    ((∀ ig, sp.intergenic = some ig → ig.spanning ≠ []) →
      (∀ ds, sp.splice_donors = some ds → ds = []) →
      (∀ ac, sp.splice_acceptors = some ac → ac = []) →
      sp.in_intron = true → sp.csqn = "Intronic") ∧
    ((∀ ig, sp.intergenic = some ig → ig.spanning ≠ []) →
      (∀ ds, sp.splice_donors = some ds → ds = []) →
      (∀ ac, sp.splice_acceptors = some ac → ac = []) →
      sp.in_intron = false → sp.in_UTR = true →
      ∀ u, sp.b1.UTR = some u → sp.csqn = u ++ "-UTR") ∧
    ((∀ ig, sp.intergenic = some ig → ig.spanning ≠ []) →
      (∀ ds, sp.splice_donors = some ds → ds = []) →
      (∀ ac, sp.splice_acceptors = some ac → ac = []) →
      sp.in_intron = false → sp.in_UTR = false → sp.csqn = "Unclassified") ∧
    (ra.intronic = true → ra.csqn = "Intronic") ∧
    (ra.intronic = false → ∀ u, ra.UTR = some u → u ≠ "" → ra.csqn = u ++ "-UTR") ∧
    (ra.intronic = false → pyTruthyStr ra.UTR = false →
      ∀ ig, ra.intergenic = some ig → ra.csqn = "Intergenic") ∧
    (ra.intronic = false → pyTruthyStr ra.UTR = false → ra.intergenic = none →
      ra.csqn = "Unclassified") := by
  have hIGfalse : (∀ ig, sp.intergenic = some ig → ig.spanning ≠ []) →
      (match sp.intergenic with
        | some ig => ig.spanning.isEmpty
        | none => false) = false := by
    intro h
    cases hig : sp.intergenic with
    | none => rfl
    | some ig =>
      cases hsp : ig.spanning with
      | nil => exact absurd hsp (h ig hig)
      | cons a l => simp [hsp]
  have hDSfalse : (∀ ds, sp.splice_donors = some ds → ds = []) →
      (match sp.splice_donors with
        | some ds => !ds.isEmpty
        | none => false) = false := by
    intro h
    cases hds : sp.splice_donors with
    | none => rfl
    | some ds => simp [h ds hds]
  have hACfalse : (∀ ac, sp.splice_acceptors = some ac → ac = []) →
      (match sp.splice_acceptors with
        | some ac => !ac.isEmpty
        | none => false) = false := by
    intro h
    cases hac : sp.splice_acceptors with
    | none => rfl
    | some ac => simp [h ac hac]
  refine ⟨?_, ?_, ?_, ?_, ?_, ?_, ?_, ?_, ?_, ?_⟩
  · rintro ⟨ig, hig, hsp⟩
    simp [RegSpanAnno.csqn, hig, hsp]
  · rintro h1 ⟨ds, hds, hne⟩
    rw [RegSpanAnno.csqn, if_neg (by simp [hIGfalse h1]), if_pos (by simp [hds, hne])]
  · rintro h1 h2 ⟨ac, hac, hne⟩
    rw [RegSpanAnno.csqn, if_neg (by simp [hIGfalse h1]),
      if_neg (by simp [hDSfalse h2]), if_pos (by simp [hac, hne])]
  · intro h1 h2 h3 hin
    rw [RegSpanAnno.csqn, if_neg (by simp [hIGfalse h1]),
      if_neg (by simp [hDSfalse h2]), if_neg (by simp [hACfalse h3]), if_pos hin]
  · intro h1 h2 h3 hin hutr u hu
    rw [RegSpanAnno.csqn, if_neg (by simp [hIGfalse h1]),
      if_neg (by simp [hDSfalse h2]), if_neg (by simp [hACfalse h3]),
      if_neg (by simp [hin]), if_pos hutr, hu]
    rfl
  · intro h1 h2 h3 hin hutr
    rw [RegSpanAnno.csqn, if_neg (by simp [hIGfalse h1]),
      if_neg (by simp [hDSfalse h2]), if_neg (by simp [hACfalse h3]),
      if_neg (by simp [hin]), if_neg (by simp [hutr])]
  · intro h
    simp [RegAnno.csqn, h]
  · intro h u hu hne
    rw [RegAnno.csqn, if_neg (by simp [h]), if_pos (by simp [pyTruthyStr, hu, hne]), hu]
    rfl
  · intro h hutr ig hig
    rw [RegAnno.csqn, if_neg (by simp [h]), if_neg (by simp [hutr]),
      if_pos (by simp [hig])]
  · intro h hutr hig
    rw [RegAnno.csqn, if_neg (by simp [h]), if_neg (by simp [hutr]),
      if_neg (by simp [hig])]

/-- Witness for csqn_precedence: a span with one splice donor and no
intergenic attachment labels SpliceDonor, and an intronic single site
labels Intronic. -/
theorem csqn_precedence_witness :
    RegSpanAnno.csqn
      ⟨raPlain, raPlain, [], none, some [⟨1, "chr1", 5⟩], none, none,
        false, false, none⟩ = "SpliceDonor" ∧
    RegAnno.csqn { raPlain with intronic := true } = "Intronic" := by
  constructor
  · exact (csqn_precedence
      ⟨raPlain, raPlain, [], none, some [⟨1, "chr1", 5⟩], none, none,
        false, false, none⟩ raPlain).2.1
      (fun ig h => Option.noConfusion h) ⟨[⟨1, "chr1", 5⟩], rfl, by simp⟩
  · exact (csqn_precedence
      ⟨raPlain, raPlain, [], none, none, none, none, false, false, none⟩
      { raPlain with intronic := true }).2.2.2.2.2.2.1 rfl

/-! Helper lemmas about decimal printing and digit characters, shared by
the round-trip and formatting proofs. -/

theorem natDigitsAux_succ (f n : Nat) :
    natDigitsAux (f+1) n =
      if n = 0 then [] else natDigitsAux f (n / 10) ++ [digitChar (n % 10)] := rfl

theorem natDigitsAux_zero (f : Nat) : natDigitsAux f 0 = [] := by
  cases f with
  | zero => rfl
  | succ f => rw [natDigitsAux_succ, if_pos rfl]

theorem digitChar_isDigit {d : Nat} (h : d < 10) : (digitChar d).isDigit = true := by
  interval_cases d <;> decide

theorem digitVal_digitChar {d : Nat} (h : d < 10) : digitVal (digitChar d) = d := by
  interval_cases d <;> decide

theorem digitChar_ne_zero {d : Nat} (h1 : 1 ≤ d) (h2 : d < 10) : digitChar d ≠ '0' := by
  interval_cases d <;> decide

theorem natDigitsAux_all_digits : ∀ f n, (natDigitsAux f n).all Char.isDigit = true := by
  intro f
  induction f with
  | zero => intro n; rfl
  | succ f ih =>
    intro n
    by_cases h : n = 0
    · rw [natDigitsAux_succ, if_pos h]; rfl
    · rw [natDigitsAux_succ, if_neg h]
      simp [List.all_append, ih (n / 10), digitChar_isDigit (Nat.mod_lt _ (by norm_num))]

theorem natChars_all_digits (n : Nat) : (natChars n).all Char.isDigit = true := by
  by_cases h : n = 0
  · rw [natChars, if_pos h]; decide
  · rw [natChars, if_neg h]; exact natDigitsAux_all_digits n n

theorem natDigitsAux_ne_nil (f n : Nat) (h1 : 1 ≤ n) (h2 : n ≤ f) :
    natDigitsAux f n ≠ [] := by
  cases f with
  | zero => omega
  | succ f =>
    rw [natDigitsAux_succ, if_neg (by omega)]
    simp

theorem natChars_ne_nil (n : Nat) : natChars n ≠ [] := by
  by_cases h : n = 0
  · rw [natChars, if_pos h]; simp
  · rw [natChars, if_neg h]
    exact natDigitsAux_ne_nil n n (by omega) (le_refl n)

theorem digitsVal_append (l : List Char) (c : Char) :
    digitsVal (l ++ [c]) = 10 * digitsVal l + digitVal c := by
  simp [digitsVal, List.foldl_append]

theorem digitsVal_natDigitsAux : ∀ f n, n ≤ f → digitsVal (natDigitsAux f n) = n := by
  intro f
  induction f with
  | zero => intro n h; interval_cases n; rfl
  | succ f ih =>
    intro n h
    by_cases h0 : n = 0
    · rw [natDigitsAux_succ, if_pos h0, h0]; rfl
    · rw [natDigitsAux_succ, if_neg h0, digitsVal_append,
        ih (n / 10) (by
          have := Nat.div_lt_self (show 0 < n by omega) (show 1 < 10 by norm_num)
          omega),
        digitVal_digitChar (Nat.mod_lt _ (by norm_num))]
      omega

theorem digitsVal_natChars (n : Nat) : digitsVal (natChars n) = n := by
  by_cases h : n = 0
  · rw [natChars, if_pos h, h]; rfl
  · rw [natChars, if_neg h]
    exact digitsVal_natDigitsAux n n (le_refl n)

theorem headD_append_left {l1 l2 : List Char} {d : Char} (h : l1 ≠ []) :
    (l1 ++ l2).headD d = l1.headD d := by
  cases l1 with
  | nil => exact absurd rfl h
  | cons a l => rfl

theorem natDigitsAux_head : ∀ f n, 1 ≤ n → n ≤ f →
    (natDigitsAux f n).headD ' ' ≠ '0' := by
  intro f
  induction f with
  | zero => intro n h1 h2; omega
  | succ f ih =>
    intro n h1 h2
    rw [natDigitsAux_succ, if_neg (by omega)]
    by_cases hq : n / 10 = 0
    · rw [hq, natDigitsAux_zero, List.nil_append, List.headD_cons]
      have hlt : n < 10 := by omega
      rw [Nat.mod_eq_of_lt hlt]
      exact digitChar_ne_zero h1 hlt
    · have hdivlt : n / 10 < n :=
        Nat.div_lt_self (show 0 < n by omega) (show 1 < 10 by norm_num)
      rw [headD_append_left (natDigitsAux_ne_nil f (n / 10) (by omega) (by omega))]
      exact ih (n / 10) (by omega) (by omega)

theorem natChars_head (n : Nat) (h : 1 ≤ n) : (natChars n).headD ' ' ≠ '0' := by
  rw [natChars, if_neg (by omega)]
  exact natDigitsAux_head n n h (le_refl n)

theorem takeWhile_all_eq {p : Char → Bool} : ∀ (l : List Char), l.all p = true →
    l.takeWhile p = l
  | [], _ => rfl
  | a :: l, h => by
    simp only [List.all_cons, Bool.and_eq_true] at h
    simp [List.takeWhile_cons, h.1, takeWhile_all_eq l h.2]

theorem takeWhile_append_all {p : Char → Bool} : ∀ (l1 l2 : List Char),
    l1.all p = true → (l1 ++ l2).takeWhile p = l1 ++ l2.takeWhile p
  | [], _, _ => rfl
  | a :: l1, l2, h => by
    simp only [List.all_cons, Bool.and_eq_true] at h
    simp [List.takeWhile_cons, h.1, takeWhile_append_all l1 l2 h.2]

theorem dropWhile_append_all {p : Char → Bool} : ∀ (l1 l2 : List Char),
    l1.all p = true → (l1 ++ l2).dropWhile p = l2.dropWhile p
  | [], _, _ => rfl
  | a :: l1, l2, h => by
    simp only [List.all_cons, Bool.and_eq_true] at h
    simp [List.dropWhile_cons, h.1, dropWhile_append_all l1 l2 h.2]

theorem takeWhile_headD_false {p : Char → Bool} : ∀ (l : List Char),
    p (l.headD ' ') = false → l.takeWhile p = []
  | [], _ => rfl
  | a :: l, h => by
    rw [List.headD_cons] at h
    simp [List.takeWhile_cons, h]

theorem dropWhile_headD_false {p : Char → Bool} : ∀ (l : List Char),
    p (l.headD ' ') = false → l.dropWhile p = l
  | [], _ => rfl
  | a :: l, h => by
    rw [List.headD_cons] at h
    simp [List.dropWhile_cons, h]

/-- C9 counterexample: the distance text is not grouped by thousands: the
flank distance 1234567 renders as the plain digits with no commas, so the
rendered intergenic description carries the ungrouped text. -/
theorem format_group_cex :
    format_group 1234567 = "1234567" ∧
    ("1234567" : String) ≠ "1,234,567" ∧
    RegIntergenicAnno.format0 ⟨some ("A"), 1234567, none, some ("B"), 30, some '-'⟩
      = "intergenic_between_A(1234567_bp)_and_B(30_bp_downstream)" := by
  decide

/-- C9 (amended): for every flank distance the rendered distance text is
the plain decimal representation with no grouping and no decimal part
(every character of the rendered number is a digit, so no comma or other
locale separator appears), independent of any locale, and the flank text
is that number followed by the base-pair suffix. -/
theorem format_group_plain :
    (∀ n : Nat, ∀ c ∈ (format_group (n : Int)).data, c.isDigit = true) ∧
    (∀ a : RegIntergenicAnno, a.e5_strand = none →
      a.e5_text = format_group a.e5_dist ++ "_bp") ∧
    (∀ a : RegIntergenicAnno, a.e3_strand = none →
      a.e3_text = format_group a.e3_dist ++ "_bp") := by
  refine ⟨fun n c hc => ?_, fun a h => ?_, fun a h => ?_⟩
  · have hdata : (format_group (n : Int)).data = natChars n := by
      simp [format_group, intStr, intChars, Int.natAbs_ofNat]
    rw [hdata] at hc
    have h := natChars_all_digits n
    rw [List.all_eq_true] at h
    exact h c hc
  · simp [RegIntergenicAnno.e5_text, h]
  · simp [RegIntergenicAnno.e3_text, h]

/-- Witness for format_group_plain at the concrete distance 1234567 and a
concrete five-prime flank with unknown strand. -/
theorem format_group_plain_witness :
    ('1').isDigit = true ∧
    RegIntergenicAnno.e5_text ⟨some ("A"), 1234567, none, some ("B"), 30, some '-'⟩
      = format_group 1234567 ++ "_bp" := by
  constructor
  · exact format_group_plain.1 1234567 '1' (by decide)
  · exact format_group_plain.2.1 ⟨some ("A"), 1234567, none, some ("B"), 30, some '-'⟩ rfl

/-- C8: each intergenic flank direction is determined independently from
that flank gene strand: the five-prime flank reads downstream iff its
strand is plus and upstream for any other known strand, the three-prime
flank reads downstream iff its strand is minus and upstream otherwise, and
a flank with unknown strand renders only the distance text with no
directional suffix; the full description composes the two flank texts. -/
theorem intergenic_flank_direction (a : RegIntergenicAnno) :
    (a.e5_strand = some '+' → a.e5_stream = some ("downstream")) ∧
    (∀ c, a.e5_strand = some c → c ≠ '+' → a.e5_stream = some ("upstream")) ∧
    (a.e5_strand = none → a.e5_stream = none ∧
      a.e5_text = format_group a.e5_dist ++ "_bp") ∧
    (∀ c, a.e5_strand = some c →
      a.e5_text = format_group a.e5_dist ++ "_bp_" ++ (a.e5_stream.getD "")) ∧
    (a.e3_strand = some '-' → a.e3_stream = some ("downstream")) ∧
    (∀ c, a.e3_strand = some c → c ≠ '-' → a.e3_stream = some ("upstream")) ∧
    (a.e3_strand = none → a.e3_stream = none ∧
      a.e3_text = format_group a.e3_dist ++ "_bp") ∧
    (∀ c, a.e3_strand = some c →
      a.e3_text = format_group a.e3_dist ++ "_bp_" ++ (a.e3_stream.getD "")) ∧
    (a.format0 = ("intergenic_between_") ++ pyStrOpt a.e5_name ++ "(" ++ a.e5_text
      ++ ")_and_" ++ pyStrOpt a.e3_name ++ "(" ++ a.e3_text ++ ")") := by
  refine ⟨fun h => ?_, fun c h hc => ?_, fun h => ⟨?_, ?_⟩, fun c h => ?_,
    fun h => ?_, fun c h hc => ?_, fun h => ⟨?_, ?_⟩, fun c h => ?_, rfl⟩
  · simp [RegIntergenicAnno.e5_stream, h]
  · simp [RegIntergenicAnno.e5_stream, h, hc]
  · simp [RegIntergenicAnno.e5_stream, h]
  · simp [RegIntergenicAnno.e5_text, h]
  · simp [RegIntergenicAnno.e5_text, h]
  · simp [RegIntergenicAnno.e3_stream, h]
  · simp [RegIntergenicAnno.e3_stream, h, hc]
  · simp [RegIntergenicAnno.e3_stream, h]
  · simp [RegIntergenicAnno.e3_text, h]
  · simp [RegIntergenicAnno.e3_text, h]

/-- Witness for intergenic_flank_direction at concrete flanks: plus gives
downstream on the five-prime side, minus gives downstream on the
three-prime side, and an unknown five-prime strand gives distance-only
text. -/
theorem intergenic_flank_direction_witness :
    RegIntergenicAnno.e5_stream ⟨some ("A"), 10, some '+', some ("B"), 20, some '-'⟩
      = some ("downstream") ∧
    RegIntergenicAnno.e3_stream ⟨some ("A"), 10, some '+', some ("B"), 20, some '-'⟩
      = some ("downstream") ∧
    RegIntergenicAnno.e5_text ⟨some ("A"), 10, none, some ("B"), 20, some '-'⟩
      = format_group 10 ++ "_bp" := by
  refine ⟨(intergenic_flank_direction _).1 rfl,
    (intergenic_flank_direction _).2.2.2.2.1 rfl,
    ((intergenic_flank_direction ⟨some ("A"), 10, none, some ("B"), 20, some '-'⟩).2.2.1 rfl).2⟩

/-- Appending an info token leaves the consequence tag list unchanged. -/
theorem append_info_csqn (r : Record) (m : String) : (r.append_info m).csqn = r.csqn := by
  rw [Record.append_info]
  split_ifs <;> rfl

/-- C6: in set_splice on a span record, a crossed coding start appends the
CdsStart tag on the plus strand and the CdsStop tag on the minus strand,
and symmetrically a crossed coding end appends CdsStop on plus and
CdsStart on minus; whenever either crossing flag is set the method reports
true. -/
theorem set_splice_cds_cross (r : Record) (sp : RegSpanAnno) (tr : Transcript)
    (a0 ca : String) (hreg : r.reg = Reg.span sp) (ht : sp.t = some tr) :
    (sp.splice_donors = none → sp.splice_acceptors = none → sp.splice_both = none →
      sp.cross_start = true → sp.cross_end = false → tr.strand = '+' →
      ∃ r2, r.set_splice a0 ca = some (r2, true) ∧
        r2.csqn = r.csqn ++ [("CdsStart") ++ ca]) ∧
    (sp.splice_donors = none → sp.splice_acceptors = none → sp.splice_both = none →
      sp.cross_start = true → sp.cross_end = false → tr.strand = '-' →
      ∃ r2, r.set_splice a0 ca = some (r2, true) ∧
        r2.csqn = r.csqn ++ [("CdsStop") ++ ca]) ∧
    (sp.splice_donors = none → sp.splice_acceptors = none → sp.splice_both = none →
      sp.cross_start = false → sp.cross_end = true → tr.strand = '+' →
      ∃ r2, r.set_splice a0 ca = some (r2, true) ∧
        r2.csqn = r.csqn ++ [("CdsStop") ++ ca]) ∧
    (sp.splice_donors = none → sp.splice_acceptors = none → sp.splice_both = none →
      sp.cross_start = false → sp.cross_end = true → tr.strand = '-' →
      ∃ r2, r.set_splice a0 ca = some (r2, true) ∧
        r2.csqn = r.csqn ++ [("CdsStart") ++ ca]) ∧
    (sp.cross_start = true →
      ∃ pr : Record × Bool, r.set_splice a0 ca = some pr ∧ pr.2 = true) ∧
    (sp.cross_end = true →
      ∃ pr : Record × Bool, r.set_splice a0 ca = some pr ∧ pr.2 = true) := by
  refine ⟨fun hds hac hb hcs hce hstr => ?_, fun hds hac hb hcs hce hstr => ?_,
    fun hds hac hb hcs hce hstr => ?_, fun hds hac hb hcs hce hstr => ?_,
    fun hcs => ?_, fun hce => ?_⟩
  · simp only [Record.set_splice, hreg, hds, hac, hb, hcs, hce, ht, hstr]
    simp only [if_true, Option.some_bind, Bool.false_eq_true, if_false, if_pos rfl]
    exact ⟨_, rfl, by rw [append_info_csqn]⟩
  · simp only [Record.set_splice, hreg, hds, hac, hb, hcs, hce, ht, hstr]
    simp only [if_true, Option.some_bind, Bool.false_eq_true, if_false,
      if_neg (show ¬ ('-' = '+') by decide)]
    exact ⟨_, rfl, by rw [append_info_csqn]⟩
  · simp only [Record.set_splice, hreg, hds, hac, hb, hcs, hce, ht, hstr]
    simp only [if_true, Option.some_bind, Bool.false_eq_true, if_false, if_pos rfl]
    exact ⟨_, rfl, by rw [append_info_csqn]⟩
  · simp only [Record.set_splice, hreg, hds, hac, hb, hcs, hce, ht, hstr]
    simp only [if_true, Option.some_bind, Bool.false_eq_true, if_false,
      if_neg (show ¬ ('-' = '+') by decide)]
    exact ⟨_, rfl, by rw [append_info_csqn]⟩
  · simp only [Record.set_splice, hreg, hcs, ht, if_true]
    by_cases hstr : tr.strand = '+' <;>
      cases hce : sp.cross_end <;>
        simp [hstr, Option.some_bind]
  · simp only [Record.set_splice, hreg, hce, ht]
    cases hds : sp.splice_donors <;> cases hac : sp.splice_acceptors <;>
      cases hb : sp.splice_both <;> cases hcs : sp.cross_start <;>
        by_cases hstr : tr.strand = '+' <;>
          simp [hstr, Option.some_bind]

/-- Witness for set_splice_cds_cross at a concrete span record crossing
the coding start on the plus strand. -/
theorem set_splice_cds_cross_witness :
    ((Record.mk "." "." "." "."
        (Reg.span ⟨raPlain, raPlain, [], none, none, none, none, true, false, some trEx⟩)
        "." true []).set_splice ("") ("Deletion")).map
      (fun pr => (pr.2, pr.1.csqn)) = some (true, [("CdsStartDeletion")]) := by
  obtain ⟨r2, h1, h2⟩ := (set_splice_cds_cross
    (Record.mk "." "." "." "."
      (Reg.span ⟨raPlain, raPlain, [], none, none, none, none, true, false, some trEx⟩)
      "." true [])
    ⟨raPlain, raPlain, [], none, none, none, none, true, false, some trEx⟩
    trEx ("") ("Deletion") rfl rfl).1 rfl rfl rfl rfl rfl rfl
  rw [h1, Option.map_some', h2]
  rfl

/-! Helper lemmas about the position grammar, shared by the round-trip
proof and the parse_pos shape theorem. -/

theorem parseDecInt_natChars (n : Nat) (rest : List Char)
    (hrest : (rest.headD ' ').isDigit = false) :
    parseDecInt (natChars n ++ rest) = some (n, rest) := by
  have hTW : (natChars n ++ rest).takeWhile Char.isDigit = natChars n := by
    rw [takeWhile_append_all _ _ (natChars_all_digits n),
      takeWhile_headD_false rest hrest, List.append_nil]
  have hDW : (natChars n ++ rest).dropWhile Char.isDigit = rest := by
    rw [dropWhile_append_all _ _ (natChars_all_digits n),
      dropWhile_headD_false rest hrest]
  simp only [parseDecInt, hTW, hDW]
  rw [if_neg (natChars_ne_nil n)]
  by_cases h0 : n = 0
  · subst h0
    rw [if_neg (by decide)]
    rw [digitsVal_natChars]
  · have hne : ¬((((natChars n).headD ' ' = '0') &&
        (natChars n).any fun c => !(c = '0')) = true) := by
      intro hcontra
      rw [Bool.and_eq_true] at hcontra
      have h1 := hcontra.1
      rw [decide_eq_true_eq] at h1
      exact natChars_head n (by omega) h1
    rw [if_neg hne, digitsVal_natChars]

theorem parsePW_succ_false (f : Nat) (l : List Char) :
    parsePW (f+1) false l = (parseDecInt l).bind fun nr =>
      match nr.2 with
      | '*' :: '*' :: r2 =>
        (parsePW f true r2).bind fun er =>
          if er.1 < 0 then none else some ((nr.1 : Int) ^ er.1.toNat, er.2)
      | _ => some ((nr.1 : Int), nr.2) := rfl

theorem parsePW_succ_true_cons (f : Nat) (c : Char) (l2 : List Char) :
    parsePW (f+1) true (c :: l2) =
      if c = '+' then parsePW f true l2
      else if c = '-' then (parsePW f true l2).map (fun vr => (-vr.1, vr.2))
      else parsePW f false (c :: l2) := rfl

theorem parsePW_false_natChars (f n : Nat) :
    parsePW (f+1) false (natChars n) = some ((n : Int), []) := by
  have hd : parseDecInt (natChars n) = some (n, []) := by
    have := parseDecInt_natChars n [] (by decide)
    rwa [List.append_nil] at this
  rw [parsePW_succ_false, hd]
  rfl

theorem parsePW_true_natChars (f n : Nat) :
    parsePW (f+2) true (natChars n) = some ((n : Int), []) := by
  obtain ⟨c, l2, hc⟩ := List.exists_cons_of_ne_nil (natChars_ne_nil n)
  have hdig : c.isDigit = true := by
    have h := natChars_all_digits n
    rw [hc] at h
    simp only [List.all_cons, Bool.and_eq_true] at h
    exact h.1
  have hplus : ¬ c = '+' := by
    intro e
    rw [e] at hdig
    exact absurd hdig (by decide)
  have hminus : ¬ c = '-' := by
    intro e
    rw [e] at hdig
    exact absurd hdig (by decide)
  rw [hc, parsePW_succ_true_cons, if_neg hplus, if_neg hminus, ← hc]
  exact parsePW_false_natChars f n

theorem parseMExprAux_succ_nil (f : Nat) (acc : Int) :
    parseMExprAux (f+1) acc [] = some (acc, []) := rfl

theorem parseAExprAux_succ_nil (f : Nat) (acc : Int) :
    parseAExprAux (f+1) acc [] = some (acc, []) := rfl

theorem pyEvalInt_natChars (n : Nat) : pyEvalInt (natChars n) = some (n : Int) := by
  simp only [pyEvalInt, parseMExpr]
  obtain ⟨f, hf⟩ : ∃ f, 2 * (natChars n).length + 8 = f + 2 :=
    ⟨2 * (natChars n).length + 6, by omega⟩
  rw [hf, parsePW_true_natChars f n, Option.some_bind]
  rw [show f + 2 = (f + 1) + 1 from rfl, parseMExprAux_succ_nil, Option.some_bind,
    parseAExprAux_succ_nil]
  rfl

theorem pyEvalInt_plus_natChars (n : Nat) :
    pyEvalInt ('+' :: natChars n) = some (n : Int) := by
  simp only [pyEvalInt, parseMExpr]
  obtain ⟨f, hf⟩ : ∃ f, 2 * ('+' :: natChars n).length + 8 = f + 3 :=
    ⟨2 * ('+' :: natChars n).length + 5, by omega⟩
  rw [hf, show f + 3 = (f + 2) + 1 from rfl, parsePW_succ_true_cons, if_pos rfl,
    parsePW_true_natChars f n, Option.some_bind]
  rw [show f + 2 + 1 = (f + 2) + 1 from rfl, parseMExprAux_succ_nil, Option.some_bind,
    parseAExprAux_succ_nil]
  rfl

theorem pyEvalInt_minus_natChars (n : Nat) :
    pyEvalInt ('-' :: natChars n) = some (-(n : Int)) := by
  simp only [pyEvalInt, parseMExpr]
  obtain ⟨f, hf⟩ : ∃ f, 2 * ('-' :: natChars n).length + 8 = f + 3 :=
    ⟨2 * ('-' :: natChars n).length + 5, by omega⟩
  rw [hf, show f + 3 = (f + 2) + 1 from rfl, parsePW_succ_true_cons,
    if_neg (show ¬ ('-' = '+') by decide), if_pos rfl,
    parsePW_true_natChars f n]
  rw [show Option.map (fun vr => (-vr.1, vr.2)) (some ((n : Int), ([] : List Char)))
      = some (-(n : Int), ([] : List Char)) from rfl, Option.some_bind]
  rw [parseMExprAux_succ_nil, Option.some_bind, parseAExprAux_succ_nil]
  rfl

theorem pyIsdigit_natChars (n : Nat) : pyIsdigit (natChars n) = true := by
  have h1 := natChars_all_digits n
  have h2 := natChars_ne_nil n
  cases hc : natChars n with
  | nil => exact absurd hc h2
  | cons a l =>
    rw [hc] at h1
    simp [pyIsdigit, h1]

theorem pyIsdigit_append_sign (l1 l2 : List Char) (c : Char) (hc : c.isDigit = false) :
    pyIsdigit (l1 ++ c :: l2) = false := by
  simp [pyIsdigit, List.all_append, hc]

theorem isClass2_of_digit {c : Char} (h : c.isDigit = true) : isClass2 c = true := by
  simp [isClass2, h]

theorem all_class2_natChars (t : Nat) : (natChars t).all isClass2 = true := by
  have h := natChars_all_digits t
  rw [List.all_eq_true] at *
  intro x hx
  exact isClass2_of_digit (h x hx)

theorem regex2_signed (n t : Nat) (c : Char) (hc2 : isClass2 c = true)
    (hcd : c.isDigit = false) :
    regex2 (natChars n ++ c :: natChars t) = some (natChars n, c :: natChars t) := by
  have hTW : (natChars n ++ c :: natChars t).takeWhile Char.isDigit = natChars n := by
    rw [takeWhile_append_all _ _ (natChars_all_digits n),
      takeWhile_headD_false _ (by simpa using hcd), List.append_nil]
  simp only [regex2, hTW]
  rw [if_neg (by simpa [List.length_eq_zero] using natChars_ne_nil n)]
  rw [List.drop_left, List.headD_cons, if_pos hc2, List.take_left]
  rw [takeWhile_all_eq (c :: natChars t) (by simp [List.all_cons, hc2, all_class2_natChars t])]

theorem parse_posL_signed (n t : Nat) (c : Char) (vt : Int) (hc2 : isClass2 c = true)
    (hcd : c.isDigit = false) (hval : pyEvalInt (c :: natChars t) = some vt) :
    parse_posL (natChars n ++ c :: natChars t) = PyOutcome.ok ⟨(n : Int), vt⟩ := by
  simp only [parse_posL, pyIsdigit_append_sign _ _ _ hcd, Bool.false_eq_true, if_false,
    regex2_signed n t c hc2 hcd, hval, digitsVal_natChars]

/-- C2 counterexample: a position with negative base and zero offset does
not round-trip: base minus five with offset zero renders as the minus-five
token, which parse_pos reads as base one with offset minus five. -/
theorem pos_repr_roundtrip_cex :
    Pos.repr ⟨-5, 0⟩ = ("-5") ∧
    parse_pos (Pos.repr ⟨-5, 0⟩) = PyOutcome.ok ⟨1, -5⟩ ∧
    Pos.mk 1 (-5) ≠ ⟨-5, 0⟩ := by
  decide

/-- C2 (amended): for every position with nonnegative base, rendering with
repr and re-parsing with parse_pos yields an equal position, both when the
offset is zero and when it is nonzero; the restriction to nonnegative base
is forced by the counterexample with base minus five and offset zero. -/
theorem pos_repr_roundtrip (p : Pos) (hp : 0 ≤ p.pos) :
    parse_pos p.repr = PyOutcome.ok p := by
  obtain ⟨pb, pt⟩ := p
  have hp2 : (0 : Int) ≤ pb := hp
  show parse_posL (Pos.reprL ⟨pb, pt⟩) = PyOutcome.ok ⟨pb, pt⟩
  have hnb : ¬ pb < 0 := by omega
  have habs : pb.natAbs = pb.toNat := by omega
  have hcast : ((pb.toNat : Nat) : Int) = pb := by omega
  rcases lt_trichotomy pt 0 with hneg | hzero | hpos
  · have hrepr : Pos.reprL ⟨pb, pt⟩ = natChars pb.toNat ++ '-' :: natChars pt.natAbs := by
      simp only [Pos.reprL, intChars, if_pos hneg, if_neg hnb, habs]
    rw [hrepr, parse_posL_signed pb.toNat pt.natAbs '-' (-(pt.natAbs : Int)) (by decide)
      (by decide) (pyEvalInt_minus_natChars pt.natAbs)]
    have hval : -((pt.natAbs : Nat) : Int) = pt := by omega
    rw [hcast, hval]
  · have hrepr : Pos.reprL ⟨pb, pt⟩ = natChars pb.toNat := by
      simp only [Pos.reprL, intChars, if_neg (show ¬ pt < 0 by omega),
        if_neg (show ¬ 0 < pt by omega), if_neg hnb, habs]
    rw [hrepr]
    unfold parse_posL
    rw [if_pos (pyIsdigit_natChars pb.toNat), digitsVal_natChars, hcast, hzero]
  · have hrepr : Pos.reprL ⟨pb, pt⟩ = natChars pb.toNat ++ '+' :: natChars pt.natAbs := by
      simp only [Pos.reprL, intChars, if_neg (show ¬ pt < 0 by omega), if_pos hpos,
        if_neg hnb, habs]
    rw [hrepr, parse_posL_signed pb.toNat pt.natAbs '+' ((pt.natAbs : Int)) (by decide)
      (by decide) (pyEvalInt_plus_natChars pt.natAbs)]
    have hval : ((pt.natAbs : Nat) : Int) = pt := by omega
    rw [hcast, hval]

/-- Witness for pos_repr_roundtrip at concrete positions with negative,
positive and zero offsets. -/
theorem pos_repr_roundtrip_witness :
    parse_pos (Pos.repr ⟨123, -7⟩) = PyOutcome.ok ⟨123, -7⟩ ∧
    parse_pos (Pos.repr ⟨123, 45⟩) = PyOutcome.ok ⟨123, 45⟩ ∧
    parse_pos (Pos.repr ⟨123, 0⟩) = PyOutcome.ok ⟨123, 0⟩ :=
  ⟨pos_repr_roundtrip ⟨123, -7⟩ (by decide), pos_repr_roundtrip ⟨123, 45⟩ (by decide),
    pos_repr_roundtrip ⟨123, 0⟩ (by decide)⟩

/-- C1 counterexample: the token of digits followed by a letter is none of
the five documented shapes, yet parse_pos returns a position instead of
raising InvalidInput: the regex match is unanchored at the end, backtracks
one digit, and reads one-two-a as base one with offset two. -/
theorem parse_pos_shapes_cex : parse_pos ("12a") = PyOutcome.ok ⟨1, 2⟩ := by decide

/-- C1 (amended): parse_pos maps the five documented token shapes as
specified, and it raises InvalidInput carrying the offending token exactly
for the tokens that are empty or start with a character other than a
digit, star, plus or minus (such as the letters token); a token of any
other undocumented shape that does start with such a character may still
return a position, as the digits-then-letter counterexample shows. -/
theorem parse_pos_shapes :
    parse_pos ("123") = PyOutcome.ok ⟨123, 0⟩ ∧
    parse_pos ("123+45") = PyOutcome.ok ⟨123, 45⟩ ∧
    parse_pos ("123-7") = PyOutcome.ok ⟨123, -7⟩ ∧
    parse_pos ("*12") = PyOutcome.ok ⟨-1, 12⟩ ∧
    parse_pos ("-5") = PyOutcome.ok ⟨1, -5⟩ ∧
    (∀ l : List Char, isClass3 (l.headD ' ') = false →
      parse_posL l = PyOutcome.invalidInput (("invalid_position_string_") ++ String.mk l)) ∧
    (∀ (l : List Char) (m : String), isClass3 (l.headD ' ') = true →
      parse_posL l ≠ PyOutcome.invalidInput m) := by
  refine ⟨by decide, by decide, by decide, by decide, by decide,
    fun l h => ?_, fun l m h => ?_⟩
  · cases l with
    | nil => rfl
    | cons c l2 =>
      rw [List.headD_cons] at h
      have h0 := h
      simp only [isClass3, isClass2, Bool.or_eq_false_iff,
        decide_eq_false_iff_not] at h
      have hdig : c.isDigit = false := h.2.2
      have hd : pyIsdigit (c :: l2) = false := by
        simp [pyIsdigit, List.all_cons, hdig]
      have hdigc : Char.isDigit ((c :: l2).headD ' ') = false := by
        rw [List.headD_cons]; exact hdig
      have htw2 : List.takeWhile Char.isDigit (c :: l2) = [] :=
        takeWhile_headD_false (c :: l2) hdigc
      have hr2 : regex2 (c :: l2) = none := by
        simp [regex2, htw2]
      have hc3 : isClass3 ((c :: l2).headD ' ') = false := by
        rw [List.headD_cons]; exact h0
      have htw3 : List.takeWhile isClass3 (c :: l2) = [] :=
        takeWhile_headD_false (c :: l2) hc3
      have hr3 : regex3 (c :: l2) = none := by
        simp [regex3, htw3]
      simp only [parse_posL, hd, Bool.false_eq_true, if_false, hr2, hr3]
  · cases l with
    | nil => exact absurd h (by decide)
    | cons c l2 =>
      rw [List.headD_cons] at h
      intro hcon
      unfold parse_posL at hcon
      split at hcon
      · exact PyOutcome.noConfusion hcon
      · split at hcon
        · split at hcon
          · exact PyOutcome.noConfusion hcon
          · exact PyOutcome.noConfusion hcon
        · split at hcon
          · rename_i g hg
            revert hcon
            show (match pyEvalInt (if g.headD ' ' = '*' then g.drop 1 else g) with
              | some v => PyOutcome.ok ⟨(if g.headD ' ' = '-' then (1 : Int) else -1), v⟩
              | none => PyOutcome.pyError) = PyOutcome.invalidInput m → False
            cases hpe : pyEvalInt (if g.headD ' ' = '*' then g.drop 1 else g) with
            | some v => intro hcon; exact PyOutcome.noConfusion hcon
            | none => intro hcon; exact PyOutcome.noConfusion hcon
          · rename_i hr3
            have htw : (c :: l2).takeWhile isClass3 = c :: l2.takeWhile isClass3 := by
              simp [List.takeWhile_cons, h]
            simp only [regex3, htw] at hr3
            rw [if_neg (by simp)] at hr3
            exact Option.noConfusion hr3

/-- Witness for parse_pos_shapes: the letters token raises InvalidInput
with the offending token, and a token starting with a digit never raises
InvalidInput. -/
theorem parse_pos_shapes_witness :
    parse_posL ("abc").data = PyOutcome.invalidInput ("invalid_position_string_abc") ∧
    parse_posL ("12a").data ≠ PyOutcome.invalidInput ("invalid_position_string_12a") := by
  constructor
  · rw [parse_pos_shapes.2.2.2.2.2.1 ("abc").data (by decide)]
    decide
  · exact parse_pos_shapes.2.2.2.2.2.2 ("12a").data
      ("invalid_position_string_12a") (by decide)
